import Mathlib

/-!
# Verification of the email-classification pipeline

Shallow embedding of the ingestion / classification / routing core of the
`email-classifiy` backend, together with theorems settling the spec claims.

Modelling conventions, applied throughout:
* Python floats are modelled as exact rationals (`ℚ`).
* Python dicts whose keys are fixed in the source are modelled as structures;
  dicts used as ordered maps (the result cache, probability maps) are modelled
  as insertion-ordered association lists, matching Python's dict iteration
  order.
* Python strings are modelled as `String`, and all primitive string operations
  (`lower`, `strip`, `split`, `in`, `startswith`, ...) are re-implemented over
  the underlying character lists so that every definition evaluates inside the
  kernel.  ASCII behaviour is modelled (the repository's data is ASCII).
* A Python function that can raise is modelled with `Option`/`Except`; a
  `try/except` block corresponds to matching on that value.
* Wall-clock timestamps (`datetime.now().isoformat()`) are passed in as an
  explicit `now : String` parameter where a claim mentions them and omitted
  from result records where no claim depends on them.
-/

/-! ## String primitives (ASCII models of the Python built-ins) -/

/-- Model of Python `str.lower()` (ASCII). -/
def strLower (s : String) : String := String.mk (s.data.map Char.toLower)

/-- Model of Python `str.strip()`. -/
def strTrim (s : String) : String :=
  String.mk ((s.data.dropWhile Char.isWhitespace).reverse.dropWhile Char.isWhitespace |>.reverse)

/-- Occurrence of `needle` as a contiguous sublist of `hay`. -/
def listHasInfix (needle : List Char) : List Char → Bool
  | [] => needle.isEmpty
  | c :: cs => needle.isPrefixOf (c :: cs) || listHasInfix needle cs

/-- Model of Python `needle in hay` for strings (substring test). -/
def strContainsSub (hay needle : String) : Bool := listHasInfix needle.data hay.data

/-- Model of Python `s.startswith(pre)`. -/
def strStartsWith (s pre : String) : Bool := pre.data.isPrefixOf s.data

/-- Model of Python `s.endswith(post)`. -/
def strEndsWith (s post : String) : Bool := post.data.reverse.isPrefixOf s.data.reverse

/-- Split a character list at every occurrence of `sep` (model of `str.split(sep)`). -/
def splitChar (sep : Char) : List Char → List (List Char)
  | [] => [[]]
  | c :: cs =>
    let r := splitChar sep cs
    if c = sep then [] :: r
    else
      match r with
      | [] => [[c]]
      | w :: ws => (c :: w) :: ws

/-- Digits-only string to a natural number; `none` when empty or non-digit. -/
def digitsToNat (l : List Char) : Option Nat :=
  if l.isEmpty then none
  else l.foldl
    (fun acc c => acc.bind fun n =>
      if c.isDigit then some (n * 10 + (c.toNat - '0'.toNat)) else none)
    (some 0)

/-- Model of Python `float(s)` on plain decimal literals (optional sign,
`123`, `123.45`, `.5`, `5.`); `none` models the `ValueError` raised on
anything else (exponents and `inf`/`nan` are not used by the repository). -/
def parseFloat (s : String) : Option ℚ :=
  let l := (strTrim s).data
  let signAndDigits : ℚ × List Char :=
    match l with
    | '-' :: rest => (-1, rest)
    | '+' :: rest => (1, rest)
    | _ => (1, l)
  let sign := signAndDigits.1
  match splitChar '.' signAndDigits.2 with
  | [ip] => (digitsToNat ip).map fun n => sign * n
  | [ip, fp] =>
    if ip.isEmpty && fp.isEmpty then none
    else
      let ipn := if ip.isEmpty then some 0 else digitsToNat ip
      let fpn := if fp.isEmpty then some 0 else digitsToNat fp
      match ipn, fpn with
      | some i, some f => some (sign * ((i : ℚ) + (f : ℚ) / (10 ^ fp.length)))
      | _, _ => none
  | _ => none

/-! ## Python values appearing in rule dictionaries -/

/-- Values stored in rule `value` fields: strings, numbers, booleans and lists
of strings (the only list element type used by the repository's rules). -/
inductive CVal where
  | s (v : String)
  | n (v : ℚ)
  | b (v : Bool)
  | ls (v : List String)
deriving DecidableEq

/-- Model of Python `==` between rule values (numeric equality identifies
`bool` with `0`/`1` as Python does; values of unrelated types are unequal). -/
def pyEq : CVal → CVal → Bool
  | .s a, .s c => a = c
  | .n a, .n c => a = c
  | .b a, .b c => a = c
  | .b a, .n c => (if a then (1 : ℚ) else 0) = c
  | .n a, .b c => a = (if c then (1 : ℚ) else 0)
  | .ls a, .ls c => a = c
  | _, _ => false

/-- Model of Python `float(x)`; `none` models a raised exception. -/
def pyFloat : CVal → Option ℚ
  | .n q => some q
  | .b bv => some (if bv then 1 else 0)
  | .s sv => parseFloat sv
  | .ls _ => none

/-! ## Shared message / classification records -/

/-- The `email_data` dict handed to the rule engines.  `time_hm` is the
`strftime("%H:%M")` rendering of the received timestamp and `day_name` its
`strftime("%A")` rendering, which is how `evaluate_condition` consumes the
timestamp. -/
structure EmailD where
  subject : String := ""
  body : String := ""
  sender : String := ""
  email_id : Option String := none
  time_hm : String := ""
  day_name : String := ""
  has_attachment : Bool := false
deriving DecidableEq

/-- The classification dict consumed by the rule engines
(`category`, `confidence`, `probabilities`, plus the optional LLM fields). -/
structure Cls where
  category : String := ""
  confidence : ℚ := 0
  probabilities : List (String × ℚ) := []
  urgency : Option String := none
  sentiment : Option String := none
deriving DecidableEq

/-! ## `AdvancedActionRules` (src/backend/app/services/advanced_action_rules.py) -/

/-- One condition dict: `type`, `operator`, `value`, and the extra `category`
key used by probability conditions (`ctype`/`op` name the dict keys `type` and
`operator`). -/
structure ACondition where
  ctype : String
  op : String
  value : CVal
  category : String := ""
deriving DecidableEq

/-- One action dict `{"type": ..., "value": ...}` (`ty` names the key `type`). -/
structure AAction where
  ty : String
  value : CVal
deriving DecidableEq

/-- One rule dict.  `enabled` defaults to `True` via `rule.get("enabled", True)`.
User-supplied rules may carry a `stop_processing` key; `AdvancedActionRules`
never reads it, and the field is kept here to state that fact. -/
structure ARule where
  id : String
  name : String
  enabled : Bool := true
  priority : Int := 0
  conditions : List ACondition
  actions : List AAction
  stop_processing : Bool := false

/-- Engine state: the mutable rule list and sender lists.  `regexSearch`
models the external `re.search(pattern, text, IGNORECASE)` library call used
by the `regex` operator. -/
structure AdvancedActionRules where
  rules : List ARule
  sender_whitelist : List String := []
  sender_blacklist : List String := []
  regexSearch : String → String → Bool := fun _ _ => false

/-- Intermediate value of `evaluate_condition`: either an early `return`
taken inside the value-preparation block, or an actual/expected pair handed to
the operator block. -/
inductive PrepResult where
  | earlyRet (b : Bool)
  | cmp (actual value : CVal)

/-- Lowering applied by `evaluate_condition` to `sender`/`domain` condition
values: `[v.lower() for v in value]` for lists, else
`value.lower() if value else ""`.  `none` models the `AttributeError` raised
when a truthy non-string scalar is lowered (caught, condition false). -/
def lowerValueForMatch : CVal → Option CVal
  | .ls l => some (.ls (l.map strLower))
  | .s v => some (.s (strLower v))
  | .n q => if q = 0 then some (.s "") else none
  | .b bv => if bv then none else some (.s "")

/-- Lowering applied to `subject`/`body`/`keywords`/`day_of_week` condition
values: `value.lower() if isinstance(value, str) else value`. -/
def lowerIfStr : CVal → CVal
  | .s v => .s (strLower v)
  | v => v

/-- Value-preparation block of `evaluate_condition` (the `if cond_type == ...`
chain); `none` models an exception caught by the enclosing `try`. -/
def prepareCondition (cond : ACondition) (email : EmailD) (cls : Cls) : Option PrepResult :=
  if cond.ctype = "category" then
    some (.cmp (.s cls.category) cond.value)
  else if cond.ctype = "confidence" then
    some (.cmp (.n cls.confidence) cond.value)
  else if cond.ctype = "sender" then
    (lowerValueForMatch cond.value).map fun v => .cmp (.s (strLower email.sender)) v
  else if cond.ctype = "subject" then
    some (.cmp (.s (strLower email.subject)) (lowerIfStr cond.value))
  else if cond.ctype = "body" then
    some (.cmp (.s (strLower email.body)) (lowerIfStr cond.value))
  else if cond.ctype = "keywords" then
    let text := strLower (email.subject ++ " " ++ email.body)
    match cond.value with
    | .ls kws => some (.earlyRet (kws.any fun kw => strContainsSub text (strLower kw)))
    | v => some (.cmp (.s text) (lowerIfStr v))
  else if cond.ctype = "time_received" then
    some (.cmp (.s email.time_hm) cond.value)
  else if cond.ctype = "day_of_week" then
    some (.cmp (.s (strLower email.day_name)) (lowerIfStr cond.value))
  else if cond.ctype = "has_attachment" then
    some (.cmp (.b email.has_attachment) cond.value)
  else if cond.ctype = "domain" then
    let actual :=
      if strContainsSub email.sender "@" then
        strLower (String.mk (((splitChar '@' email.sender.data).getLast?).getD []))
      else ""
    (lowerValueForMatch cond.value).map fun v => .cmp (.s actual) v
  else if cond.ctype = "probability" then
    some (.cmp (.n ((cls.probabilities.lookup cond.category).getD 0)) cond.value)
  else
    some (.earlyRet false)

/-- Operator block of `evaluate_condition`.  `rs` is the regex library. -/
def applyOperator (rs : String → String → Bool) (op : String) (a v : CVal) : Bool :=
  if op = "equals" then pyEq a v
  else if op = "not_equals" then !pyEq a v
  else if op = "contains" then
    match a, v with
    | .s av, .s vv => strContainsSub av vv
    | _, _ => false
  else if op = "not_contains" then
    match a, v with
    | .s av, .s vv => !strContainsSub av vv
    | _, _ => true
  else if op = "starts_with" then
    match a, v with
    | .s av, .s vv => strStartsWith av vv
    | _, _ => false
  else if op = "ends_with" then
    match a, v with
    | .s av, .s vv => strEndsWith av vv
    | _, _ => false
  else if op = "greater_than" then
    match pyFloat a, pyFloat v with
    | some x, some y => decide (y < x)
    | _, _ => false
  else if op = "less_than" then
    match pyFloat a, pyFloat v with
    | some x, some y => decide (x < y)
    | _, _ => false
  else if op = "greater_equal" then
    match pyFloat a, pyFloat v with
    | some x, some y => decide (y ≤ x)
    | _, _ => false
  else if op = "less_equal" then
    match pyFloat a, pyFloat v with
    | some x, some y => decide (x ≤ y)
    | _, _ => false
  else if op = "regex" then
    match a, v with
    | .s av, .s pat => rs pat av
    | _, _ => false
  else if op = "in" then
    match v, a with
    | .ls l, .s av => decide (av ∈ l)
    | _, _ => false
  else if op = "not_in" then
    match v, a with
    | .ls l, .s av => !decide (av ∈ l)
    | .ls _, _ => true
    | _, _ => true
  else false

/-- `AdvancedActionRules.evaluate_condition`: prepare the actual value for the
condition type, then apply the operator; any exception yields `False`. -/
def AdvancedActionRules.evaluateCondition (rs : String → String → Bool)
    (cond : ACondition) (email : EmailD) (cls : Cls) : Bool :=
  match prepareCondition cond email cls with
  | none => false
  | some (.earlyRet b) => b
  | some (.cmp a v) => applyOperator rs cond.op a v

/-- `AdvancedActionRules.evaluate_rule`: disabled rules never match, rules with
an empty condition list never match, otherwise AND over all conditions. -/
def AdvancedActionRules.evaluateRule (rs : String → String → Bool)
    (rule : ARule) (email : EmailD) (cls : Cls) : Bool :=
  if !rule.enabled then false
  else if rule.conditions.isEmpty then false
  else rule.conditions.all fun cond =>
    AdvancedActionRules.evaluateCondition rs cond email cls

/-- `_update_list_conditions`: refresh the whitelist/blacklist sender
conditions from the engine's current lists before evaluation. -/
def AdvancedActionRules.updateListConditions (ar : AdvancedActionRules) : List ARule :=
  ar.rules.map fun r =>
    if r.id = "whitelist_override" then
      { r with conditions := r.conditions.map fun c =>
          if c.ctype = "sender" then { c with value := .ls ar.sender_whitelist } else c }
    else if r.id = "blacklist_sender" then
      { r with conditions := r.conditions.map fun c =>
          if c.ctype = "sender" then { c with value := .ls ar.sender_blacklist } else c }
    else r

/-- Stable insertion of `x` into a list sorted descending by `key`
(elements with equal keys keep their original relative order, matching
Python's stable `list.sort(key=..., reverse=True)`). -/
def insertByKeyDesc (key : α → Int) (x : α) : List α → List α
  | [] => [x]
  | y :: ys => if key y < key x then x :: y :: ys else y :: insertByKeyDesc key x ys

/-- Stable descending sort by `key` (model of `list.sort(key=..., reverse=True)`). -/
def sortByKeyDesc (key : α → Int) : List α → List α
  | [] => []
  | x :: xs => insertByKeyDesc key x (sortByKeyDesc key xs)

/-- `get_matching_rules`: refresh list conditions, keep the rules whose
conditions all hold, sort by priority descending. -/
def AdvancedActionRules.getMatchingRules (ar : AdvancedActionRules)
    (email : EmailD) (cls : Cls) : List ARule :=
  sortByKeyDesc (fun r => r.priority)
    ((ar.updateListConditions).filter fun r =>
      AdvancedActionRules.evaluateRule ar.regexSearch r email cls)

/-- One entry of `rules_applied`. -/
structure AppliedRule where
  rule_id : String
  rule_name : String
  priority : Int
deriving DecidableEq

/-- One entry of `actions_taken` produced by `apply_actions`
(the constant `"status": "completed"` and the wall-clock timestamp are
omitted). -/
structure AppliedAction where
  action : String
  value : CVal
deriving DecidableEq

/-- `apply_actions`: every action of the rule is recorded as completed. -/
def AdvancedActionRules.applyActions (rule : ARule) : List AppliedAction :=
  rule.actions.map fun a => { action := a.ty, value := a.value }

/-- Result dict of `AdvancedActionRules.process_email`. -/
structure ARResult where
  rules_matched : Nat
  rules_applied : List AppliedRule
  actions_taken : List AppliedAction
deriving DecidableEq

/-- `AdvancedActionRules.process_email`: apply the actions of **every**
matching rule, in priority order; nothing stops the iteration. -/
def AdvancedActionRules.processEmail (ar : AdvancedActionRules)
    (email : EmailD) (cls : Cls) : ARResult :=
  let matching := ar.getMatchingRules email cls
  { rules_matched := matching.length
    rules_applied := matching.map fun r =>
      { rule_id := r.id, rule_name := r.name, priority := r.priority }
    actions_taken := matching.flatMap AdvancedActionRules.applyActions }

/-! ## `EnterpriseRoutingEngine` (src/backend/app/services/enterprise_routing_engine.py) -/

/-- One routing action dict (`{"type": ..., "to"/"value"/...: ...}`),
modelled as the `type` value plus the remaining key/value payload. -/
structure EAction where
  ty : String
  payload : List (String × CVal) := []
deriving DecidableEq

/-- The `actions` field of an enterprise rule: either a literal list or a
function of the classification (rule 9, `billing_issue`, uses a lambda). -/
inductive ERActions where
  | static (l : List EAction)
  | computed (f : Cls → List EAction)

/-- One enterprise routing rule.  Conditions are the rule lambdas
`(email_data, classification) -> bool`; the concrete rules' lambdas are total,
so conditions are modelled as Boolean functions. -/
structure ERule where
  id : String
  name : String
  priority : Int
  condition : EmailD → Cls → Bool
  actions : ERActions
  stop_processing : Bool := false

/-- Materialise a rule's actions at match time
(`actions(classification)` when the field is callable). -/
def ERActions.materialize : ERActions → Cls → List EAction
  | .static l, _ => l
  | .computed f, cls => f cls

/-- Result dict of `route_email`. -/
structure ERResult where
  rules_matched : Nat
  rules_applied : List AppliedRule
  actions : List EAction
deriving Inhabited

/-- Iteration body of `route_email`: walk the (already priority-sorted) rule
list, appending each matching rule's applied-rule entry and materialised
actions, and break out of the loop after a matching rule with
`stop_processing`. -/
def routeEmailLoop (email : EmailD) (cls : Cls) :
    List ERule → List AppliedRule → List EAction → ERResult
  | [], applied, acts => { rules_matched := applied.length, rules_applied := applied, actions := acts }
  | r :: rest, applied, acts =>
    if r.condition email cls then
      let applied' := applied ++ [{ rule_id := r.id, rule_name := r.name, priority := r.priority }]
      let acts' := acts ++ r.actions.materialize cls
      if r.stop_processing then
        { rules_matched := applied'.length, rules_applied := applied', actions := acts' }
      else routeEmailLoop email cls rest applied' acts'
    else routeEmailLoop email cls rest applied acts

/-- `EnterpriseRoutingEngine.route_email` on a rule list that, as in
`load_enterprise_rules`, has been sorted by priority descending.  The
`email_data` dict rebuilt at the top of the method keeps only subject, body,
sender and email id. -/
def EnterpriseRoutingEngine.routeEmail (rules : List ERule)
    (email : EmailD) (cls : Cls) : ERResult :=
  let email_data : EmailD :=
    { subject := email.subject, body := email.body, sender := email.sender
      email_id := email.email_id }
  routeEmailLoop email_data cls rules [] []

/-- The sort applied by `load_enterprise_rules`
(`self.rules.sort(key=..., reverse=True)`). -/
def EnterpriseRoutingEngine.sortRules (rules : List ERule) : List ERule :=
  sortByKeyDesc (fun r => r.priority) rules

/-! ## `EnterpriseEmailClassifier` zero-shot path
(src/backend/app/ml/enterprise_classifier.py) -/

/-- Classification result dict returned by the enterprise classifier
(`keywords_detected`, `explanation` and `model_type` carry no numeric
content relevant to the claims and are omitted). -/
structure ZSResult where
  category : String
  department : String
  confidence : ℚ
  probabilities : List (String × ℚ)
deriving DecidableEq

/-- The clamp `max(min(score + boost, 1.0), 0.0)` applied per label. -/
def clampScore (x : ℚ) : ℚ := max (min x 1) 0

/-- Sum of the values of a probability dict. -/
def sumVals (l : List (String × ℚ)) : ℚ := (l.map Prod.snd).sum

/-- Model of Python `max(probabilities, key=probabilities.get)`: the first key
whose value is maximal (Python's `max` keeps the first of equal candidates).
The empty dict (which would raise in Python) yields `""`; the zero-shot model
always supplies all ten department labels. -/
def argmaxKey : List (String × ℚ) → String
  | [] => ""
  | (k, v) :: rest =>
    let r := argmaxKeyAux k v rest
    r
where
  argmaxKeyAux (bk : String) (bv : ℚ) : List (String × ℚ) → String
    | [] => bk
    | (k, v) :: rest => if bv < v then argmaxKeyAux k v rest else argmaxKeyAux bk bv rest

/-- `EnterpriseEmailClassifier._classify_zero_shot`, from the point where the
zero-shot model has produced `(label, score)` pairs (`modelOut` is the zip of
`result['labels']` and `result['scores']`) and the keyword boosts have been
computed.  Scores are boosted and clamped, normalised to sum to 1 when the
total is positive, and the returned `probabilities` dict is scaled by 100
while `confidence` keeps the normalised (0–1) value. -/
def EnterpriseEmailClassifier.classifyZeroShot
    (modelOut : List (String × ℚ)) (boosts : List (String × ℚ)) : ZSResult :=
  let probabilities := modelOut.map fun lv =>
    (lv.1, clampScore (lv.2 + (boosts.lookup lv.1).getD 0))
  let total := sumVals probabilities
  let normalized := if 0 < total then probabilities.map (fun kv => (kv.1, kv.2 / total))
    else probabilities
  let department := argmaxKey normalized
  let confidence := (normalized.lookup department).getD 0
  { category := department
    department := department
    confidence := confidence
    probabilities := normalized.map fun kv => (kv.1, kv.2 * 100) }

/-- The department labels (`DEPARTMENTS`). -/
def enterpriseDepartments : List String :=
  ["sales", "hr", "finance", "it_support", "legal", "marketing",
   "customer_service", "operations", "executive", "general"]

/-- `EnterpriseEmailClassifier._empty_result`: the zero-confidence result with
an all-zero probability dict returned for empty content or a classification
error. -/
def EnterpriseEmailClassifier.emptyResult : ZSResult :=
  { category := "general"
    department := "general"
    confidence := 0
    probabilities := enterpriseDepartments.map fun d => (d, 0) }

/-! ## `EmailClassifier` fallback chain (src/backend/app/ml/classifier.py) -/

/-- Does `re.sub(r'http\S+|www\S+|https\S+', ...)` match at this position:
a literal `http` or `www` followed by at least one non-space character. -/
def urlMatchesHere (l : List Char) : Bool :=
  ("http".data.isPrefixOf l && !((l.drop 4).takeWhile (fun c => !c.isWhitespace)).isEmpty)
  || ("www".data.isPrefixOf l && !((l.drop 3).takeWhile (fun c => !c.isWhitespace)).isEmpty)

/-- `re.sub(r'http\S+|www\S+|https\S+', '', text)`: scanning left to right,
each match consumes the `http`/`www` prefix together with the maximal
following run of non-space characters; scanning resumes after the match.
The flag is true while inside a match's trailing `\S+` run (such a run
contains every non-space character up to the next whitespace, so consuming
it character by character is the greedy match). -/
def removeUrlsGo : Bool → List Char → List Char
  | _, [] => []
  | skipping, c :: cs =>
    if skipping then
      if c.isWhitespace then c :: removeUrlsGo false cs
      else removeUrlsGo true cs
    else if urlMatchesHere (c :: cs) then removeUrlsGo true cs
    else c :: removeUrlsGo false cs

/-- Entry point of the URL-removal substitution. -/
def removeUrls (l : List Char) : List Char := removeUrlsGo false l

/-- A whitespace-delimited token is deleted by `re.sub(r'\S+@\S+', '', text)`
exactly when it has an `@` at an interior position (at least one character
before it and one after it inside the token). -/
def tokenIsEmailLike (tok : List Char) : Bool :=
  (List.range tok.length).any fun k =>
    decide (1 ≤ k) && decide (k + 1 < tok.length) && decide (tok.get? k = some '@')

/-- Split a character list into maximal runs, tagging each run as whitespace
or non-whitespace. -/
def charRuns : List Char → List (Bool × List Char)
  | [] => []
  | c :: cs =>
    match charRuns cs with
    | [] => [(c.isWhitespace, [c])]
    | (w, run) :: rest =>
      if c.isWhitespace = w then (w, c :: run) :: rest
      else (c.isWhitespace, [c]) :: (w, run) :: rest

/-- `re.sub(r'\S+@\S+', '', text)`: delete every email-like token, keep all
whitespace and the remaining tokens. -/
def removeEmails (l : List Char) : List Char :=
  ((charRuns l).map fun wr =>
    if !wr.1 && tokenIsEmailLike wr.2 then [] else wr.2).flatten

/-- Python `\w` on ASCII: letters, digits, underscore. -/
def isWordChar (c : Char) : Bool := c.isAlphanum || c = '_'

/-- `' '.join(text.split())`: collapse whitespace runs to single spaces. -/
def collapseWhitespace (l : List Char) : List Char :=
  joinWords (((splitAtWhitespace l).filter fun w => !w.isEmpty))
where
  splitAtWhitespace (l : List Char) : List (List Char) :=
    ((charRuns l).filter fun wr => !wr.1).map Prod.snd
  joinWords : List (List Char) → List Char
    | [] => []
    | [w] => w
    | w :: ws => w ++ ' ' :: joinWords ws

/-- `EmailClassifier.preprocess_text`: lowercase, strip URLs, strip email
addresses, replace remaining non-word non-space characters by spaces, collapse
whitespace. -/
def EmailClassifier.preprocessText (text : String) : String :=
  if text = "" then ""
  else
    let t := (strLower text).data
    let t := removeUrls t
    let t := removeEmails t
    let t := t.map fun c => if isWordChar c || c.isWhitespace then c else ' '
    String.mk (collapseWhitespace t)

/-- `EmailClassifier.combine_subject_body`. -/
def EmailClassifier.combineSubjectBody (subject body : String) : String :=
  strTrim (EmailClassifier.preprocessText subject ++ " " ++ EmailClassifier.preprocessText body)

/-- A classifier stage's result dict.  The optional fields model keys that a
stage may or may not supply and that `classify` fills via `setdefault`. -/
structure StageResult where
  category : String
  confidence : ℚ
  probabilities : List (String × ℚ) := []
  urgency : Option String := none
  sentiment : Option String := none
  keywords : Option (List String) := none
  department : Option String := none
  explanation : Option String := none
deriving DecidableEq

/-- The `bert_to_enterprise` table of `_map_bert_categories`. -/
def bertToEnterprise : List (String × String) :=
  [("spam", "Spam"), ("important", "Support_Request"), ("promotion", "Sales_Inquiry"),
   ("social", "General_Feedback"), ("work", "Support_Request"), ("general", "General_Feedback"),
   ("updates", "Support_Request"), ("unknown", "Unknown")]

/-- Accumulate a probability into an insertion-ordered dict
(`if k not in mapped: mapped[k] = 0.0; mapped[k] += p`). -/
def addProb : List (String × ℚ) → String → ℚ → List (String × ℚ)
  | [], k, p => [(k, 0 + p)]
  | (k', v) :: rest, k, p =>
    if k' = k then (k', v + p) :: rest else (k', v) :: addProb rest k p

/-- `EmailClassifier._map_bert_categories`: translate the BERT category and
aggregate the probability dict through the (many-to-one) table, then set the
default `urgency`/`sentiment`/`keywords` fields. -/
def EmailClassifier.mapBertCategories (r : StageResult) : StageResult :=
  let mapped := (bertToEnterprise.lookup (strLower r.category)).getD "Unknown"
  let mappedProbs := r.probabilities.foldl
    (fun acc kv => addProb acc ((bertToEnterprise.lookup (strLower kv.1)).getD "Unknown") kv.2)
    []
  { r with
    category := mapped
    probabilities := mappedProbs
    urgency := some (r.urgency.getD "Medium")
    sentiment := some (r.sentiment.getD "Neutral")
    keywords := some (r.keywords.getD []) }

/-- The `category_map` table of `_map_to_enterprise_categories`. -/
def enterpriseCategoryMap : List (String × String) :=
  [("spam", "Spam"), ("important", "Support_Request"), ("promotion", "Sales_Inquiry"),
   ("social", "General_Feedback"), ("work", "Support_Request"), ("general", "General_Feedback"),
   ("updates", "Support_Request"), ("unknown", "Unknown"),
   ("sales", "Sales_Inquiry"), ("support", "Support_Request"), ("billing", "Billing_Issue"),
   ("hr", "HR_Inquiry"), ("partnership", "Partnership_Offer"), ("feedback", "General_Feedback")]

/-- Model of Python `str.capitalize()`: first character uppercased, the rest
lowercased. -/
def pyCapitalize (s : String) : String :=
  match s.data with
  | [] => ""
  | c :: cs => String.mk (c.toUpper :: cs.map Char.toLower)

/-- `EmailClassifier._map_to_enterprise_categories`: translate through the
table (an unmapped category passes through), capitalize a lowercase first
letter, and set the default fields. -/
def EmailClassifier.mapToEnterpriseCategories (r : StageResult) : StageResult :=
  let mapped := (enterpriseCategoryMap.lookup (strLower r.category)).getD r.category
  let mapped :=
    match mapped.data with
    | [] => mapped
    | c :: _ => if c.isLower then pyCapitalize mapped else mapped
  { r with
    category := mapped
    urgency := some (r.urgency.getD "Medium")
    sentiment := some (r.sentiment.getD "Neutral")
    keywords := some (r.keywords.getD []) }

/-- The `setdefault("urgency", "Medium")`/`setdefault("sentiment", "Neutral")`
pair applied to an accepted enterprise-stage result. -/
def withChainDefaults (r : StageResult) : StageResult :=
  { r with
    urgency := some (r.urgency.getD "Medium")
    sentiment := some (r.sentiment.getD "Neutral") }

/-- The loaded TF-IDF + Naive-Bayes pipeline, as consumed by `classify`:
`predict` and the zip of `classes_` with `predict_proba` (the sklearn model
itself is an external collaborator). -/
structure TfidfModel where
  predict : String → String
  predictProba : String → List (String × ℚ)

/-- Model of Python `max(...)` over the probability array; the empty case
(which would raise) yields 0 — `predict_proba` returns one entry per class. -/
def listMax : List ℚ → ℚ
  | [] => 0
  | x :: xs => xs.foldl max x

/-- Configuration and stage outcomes for one `EmailClassifier.classify` call.
`enterpriseActive` models `self.enterprise_mode and self.enterprise_classifier`;
each `...Outcome` is the value returned, or exception raised, by the
corresponding stage; `modelState` is `self.model` on entry; `loadOutcome`
is the effect of `load_or_train_model()` on `self.model`: an exception, or a
normal return leaving the model loaded (`ok (some m)`) or still unset
(`ok none`, reachable when the model file deserialises to a falsy value). -/
structure ChainConfig where
  enterpriseActive : Bool
  enterpriseOutcome : Except String StageResult := .error "unavailable"
  useBert : Bool
  bertPresent : Bool := false
  bertOutcome : Except String StageResult := .error "unavailable"
  modelState : Option TfidfModel := none
  loadOutcome : Except String (Option TfidfModel) := .error "unavailable"

/-- `self.model` after a `if not self.model: self.load_or_train_model()`
block: a raised load/train exception propagates. -/
def ChainConfig.modelAfterLoad (c : ChainConfig) : Except String (Option TfidfModel) :=
  match c.modelState with
  | some m => .ok (some m)
  | none => c.loadOutcome

/-- The TF-IDF prediction block at the bottom of `classify` (text combining,
the empty-text early return, prediction, and enterprise-category mapping). -/
def tfidfPredict (m : TfidfModel) (subject body : String) : Except String StageResult :=
  let text := EmailClassifier.combineSubjectBody subject body
  if strTrim text = "" then
    .ok { category := "unknown", confidence := 0, probabilities := [] }
  else
    let probDict := m.predictProba text
    .ok (EmailClassifier.mapToEnterpriseCategories
      { category := m.predict text
        confidence := listMax (probDict.map Prod.snd)
        probabilities := probDict })

/-- The `if not self.model: ... raise ValueError("Model not loaded")` guard
followed by the TF-IDF prediction, starting from a given `self.model` state. -/
def classifyTfidfFrom (c : ChainConfig) (modelSt : Option TfidfModel)
    (subject body : String) : Except String StageResult :=
  match modelSt with
  | some m => tfidfPredict m subject body
  | none =>
    match c.loadOutcome with
    | .error e => .error e
    | .ok none => .error "Model not loaded"
    | .ok (some m) => tfidfPredict m subject body

/-- The `except` handler of the BERT stage: ensure the TF-IDF model is loaded
(an exception from loading propagates), then fall through to the TF-IDF
stage. -/
def bertFailPath (c : ChainConfig) (subject body : String) : Except String StageResult :=
  match c.modelAfterLoad with
  | .error e => .error e
  | .ok st => classifyTfidfFrom c st subject body

/-- The BERT stage and everything below it: try BERT when enabled and
initialised; a result with category `"unknown"` or confidence `0.0` raises
(caught by the handler), as does a stage exception; the
`elif use_bert and not bert_classifier` branch pre-loads the model and falls
through. -/
def classifyBertStage (c : ChainConfig) (subject body : String) : Except String StageResult :=
  if c.useBert && c.bertPresent then
    match c.bertOutcome with
    | .ok r =>
      if r.category = "unknown" ∨ r.confidence = 0 then bertFailPath c subject body
      else .ok (EmailClassifier.mapBertCategories r)
    | .error _ => bertFailPath c subject body
  else if c.useBert && !c.bertPresent then
    match c.modelAfterLoad with
    | .error e => .error e
    | .ok st => classifyTfidfFrom c st subject body
  else classifyTfidfFrom c c.modelState subject body

/-- `EmailClassifier.classify`: enterprise stage first (accepted whenever its
confidence is positive; a stage exception is caught), then the BERT stage,
then the TF-IDF baseline.  `sender` is forwarded to the stages and otherwise
unused. -/
def EmailClassifier.classify (c : ChainConfig) (subject body : String)
    (sender : Option String := none) : Except String StageResult :=
  let _ := sender
  if c.enterpriseActive then
    match c.enterpriseOutcome with
    | .ok r =>
      if 0 < r.confidence then .ok (withChainDefaults r)
      else classifyBertStage c subject body
    | .error _ => classifyBertStage c subject body
  else classifyBertStage c subject body

/-! ## `ProcessingService` (src/backend/app/services/processing_service.py) -/

/-- The `result` dict built by `analyze_email` and stored in the cache.
`department_payload` is the `department_info` routing dict and is present
exactly when `department` is. -/
structure AnalysisResult where
  category : String
  decision : String
  confidence : ℚ
  probabilities : List (String × ℚ)
  sentiment_score : ℚ
  sentiment_label : String
  entities : List (String × List String)
  timestamp : String
  explanation : Option String := none
  department : Option String := none
  department_payload : List (String × String) := []
  from_cache : Bool := false
deriving DecidableEq

/-- The in-memory classification cache `_classification_cache`: a Python dict
keyed by `md5(subject + body)`, modelled as an insertion-ordered association
list keyed by the (collision-free model of the) fingerprint `subject ++ body`. -/
abbrev ResultCache := List (String × AnalysisResult)

/-- `_cache_max_size`. -/
def ProcessingService.cacheMaxSize : Nat := 1000

/-- Python dict assignment `d[k] = v`: overwrite in place when the key exists,
append at the end otherwise. -/
def dictSet (c : ResultCache) (k : String) (v : AnalysisResult) : ResultCache :=
  if c.any (fun p => p.1 = k) then c.map fun p => if p.1 = k then (k, v) else p
  else c ++ [(k, v)]

/-- Lines 220–224 of `analyze_email`: when the cache has reached
`_cache_max_size`, delete the first (oldest-inserted) key, then store. -/
def ProcessingService.storeInCache (c : ResultCache) (k : String) (v : AnalysisResult) :
    ResultCache :=
  let c := if ProcessingService.cacheMaxSize ≤ c.length then c.tail else c
  dictSet c k v

/-- Result of a custom classifier's `classify` (the custom classifiers always
supply a probabilities dict). -/
structure CustomOut where
  category : String
  confidence : ℚ
  probabilities : List (String × ℚ)
  explanation : Option String := none

/-- Result of `route_email_to_department`. -/
structure DeptResult where
  department : Option String
  payload : List (String × String) := []

/-- Result of `SentimentService.analyze_sentiment` (the fields read by
`analyze_email`). -/
structure SentimentOut where
  sentiment : String
  confidence : ℚ

/-- Collaborators and configuration of one `ProcessingService` instance.
`isSklearnPipeline` selects the trained-pipeline branch; the classifier,
department router, sentiment analyser and entity extractor are external
collaborators modelled as total functions (their internal failures are not
relevant to the claims; the department call is in any case wrapped in
`try/except`). -/
structure ProcCfg where
  isSklearnPipeline : Bool
  sklearnPredict : String → String := fun _ => ""
  sklearnProba : Option (String → List ℚ) := none
  customClassify : String → String → Option String → CustomOut
  departmentRouting : Option (String → DeptResult) := none
  sentiment : String → String → SentimentOut
  extractEntities : String → List (String × List String) := fun _ => []
  hasActionService : Bool := true

/-- Record of one `action_service.handle_classification` dispatch. -/
structure DispatchedCls where
  category : String
  confidence : ℚ
deriving DecidableEq

/-- Observable state of a `ProcessingService`: the cache plus counters/logs of
the downstream side effects (classifier invocations, database classification
logs, action dispatches). -/
structure ProcState where
  cache : ResultCache := []
  loggedClassifications : Nat := 0
  dispatched : List DispatchedCls := []
  classifierCalls : Nat := 0
deriving DecidableEq

/-- The classifier's intermediate `classification_result` dict.  In the
sklearn-pipeline branch no `probabilities` key is set (`none` here); the later
`classification_result["probabilities"]` accesses then raise `KeyError`. -/
structure InterimCls where
  category : String
  confidence : ℚ
  probabilities : Option (List (String × ℚ))
  explanation : Option String

/-- `ProcessingService.analyze_email`.  On a cache hit the stored value is
copied, its timestamp refreshed and `from_cache` set, and the call returns
before the classifier, department routing, sentiment, entity extraction,
logging and action dispatch — the state is unchanged.  On a miss the full
pipeline runs and the result is stored with FIFO eviction.  `hasCurrentDbId`
models `hasattr(self, '_current_db_id')` (ingestion-driven calls); `now` is
the wall clock. -/
def ProcessingService.analyzeEmail (cfg : ProcCfg) (st : ProcState)
    (subject body : String) (sender : Option String) (hasCurrentDbId : Bool)
    (now : String) : Except String AnalysisResult × ProcState :=
  let cacheKey := subject ++ body
  match st.cache.lookup cacheKey with
  | some v => (.ok { v with timestamp := now, from_cache := true }, st)
  | none =>
    let crec : InterimCls :=
      if cfg.isSklearnPipeline then
        let text := subject ++ " " ++ body
        { category := cfg.sklearnPredict text
          confidence :=
            match cfg.sklearnProba with
            | some f => listMax (f text)
            | none => 0.85
          probabilities := none
          explanation := none }
      else
        let r := cfg.customClassify subject body sender
        { category := r.category, confidence := r.confidence
          probabilities := some r.probabilities, explanation := r.explanation }
    let st := { st with classifierCalls := st.classifierCalls + 1 }
    let dept : Option DeptResult := cfg.departmentRouting.map fun f => f crec.category
    let deptName : Option String :=
      match dept with
      | some dr => match dr.department with
        | some d => if d = "" then none else some d
        | none => none
      | none => none
    let sentimentR := cfg.sentiment subject body
    let entities := cfg.extractEntities (subject ++ ". " ++ body)
    match crec.probabilities with
    | none =>
      if hasCurrentDbId then
        -- logging is skipped; the dispatch happens; the result build raises
        let st :=
          if cfg.hasActionService then
            { st with dispatched := st.dispatched ++ [⟨crec.category, crec.confidence⟩] }
          else st
        (.error "KeyError: probabilities", st)
      else
        -- the log-entry build raises before logging and dispatch
        (.error "KeyError: probabilities", st)
    | some probs =>
      let st :=
        if !hasCurrentDbId then
          { st with loggedClassifications := st.loggedClassifications + 1 }
        else st
      let st :=
        if cfg.hasActionService then
          { st with dispatched := st.dispatched ++ [⟨crec.category, crec.confidence⟩] }
        else st
      let result : AnalysisResult :=
        { category := crec.category
          decision := crec.category
          confidence := crec.confidence
          probabilities := probs
          sentiment_score := sentimentR.confidence
          sentiment_label := sentimentR.sentiment
          entities := entities
          timestamp := now
          explanation := crec.explanation
          department := deptName
          department_payload := if deptName.isSome then (dept.map (·.payload)).getD [] else [] }
      (.ok result, { st with cache := ProcessingService.storeInCache st.cache cacheKey result })

/-! ## `IngestionService` and `DatabaseLogger`
(src/backend/app/services/ingestion_service.py, src/backend/app/database/logger.py) -/

/-- The `EmailData` pydantic model (subject/body/sender are required strings;
`hasAttachmentHeader` models `headers.get("has_attachment", False)`). -/
structure EmailData where
  subject : String
  body : String
  sender : String
  recipient : Option String := none
  email_id : Option String := none
  hasAttachmentHeader : Bool := false
deriving DecidableEq

/-- One row of the `classifications` table as far as ingestion observes it. -/
structure RawRecord where
  email_id : Option String := none
  subject : String := ""
  sender : String := ""
  body : String := ""
  status : String := "pending"
deriving DecidableEq

/-- Observable state touched by `receive_email`: the SQLite `classifications`
rows, the count of Mongo ingest documents, and the number of classification
invocations. -/
structure IngestState where
  records : List RawRecord := []
  mongoIngests : Nat := 0
  classifyCalls : Nat := 0
deriving DecidableEq

/-- `DatabaseLogger.email_exists`: false for a missing/empty id, else a lookup
in the `classifications` table. -/
def DatabaseLogger.emailExists (records : List RawRecord) (email_id : Option String) : Bool :=
  match email_id with
  | none => false
  | some id => if id = "" then false else records.any fun r => r.email_id = some id

/-- Mark row `dbId` (1-based, as SQLite row ids) as processed
(`update_classification`). -/
def DatabaseLogger.updateStatus : List RawRecord → Nat → List RawRecord
  | [], _ => []
  | r :: rest, dbId =>
    (if dbId = 1 then { r with status := "processed" } else r)
      :: DatabaseLogger.updateStatus rest (dbId - 1)

/-- Configuration of one `IngestionService`: presence of the processing
service and its `db_logger`, the Mongo / auto-classify / async flags, and the
outcome of `processing_service.analyze_email` (ok or raised). -/
structure IngestCfg where
  hasProcessing : Bool := true
  hasDbLogger : Bool := true
  mongoEnabled : Bool := false
  autoClassify : Bool := true
  classifyAsync : Bool := false
  analyzeOutcome : String → String → String → Except String Cls

/-- `_classify_and_update`: one classifier invocation; on success the raw row
is marked processed; every exception is caught, leaving the row pending. -/
def IngestionService.classifyAndUpdate (cfg : IngestCfg) (st : IngestState)
    (e : EmailData) (dbId : Option Nat) : IngestState :=
  let st := { st with classifyCalls := st.classifyCalls + 1 }
  match cfg.analyzeOutcome e.subject e.body e.sender with
  | .ok _ =>
    match dbId with
    | some d =>
      if cfg.hasDbLogger then { st with records := DatabaseLogger.updateStatus st.records d }
      else st
    | none => st
  | .error _ => st

/-- Return value of `receive_email`
(`{"status": "skipped", "reason": "duplicate", ...}` and the three
`{"status": "received", ...}` shapes; `noProcessingService` is the implicit
`None` returned when no processing service is attached). -/
inductive ReceiveOutcome where
  | skippedDuplicate (email_id : Option String)
  | receivedQueued (email_id : Option String) (db_id : Option Nat)
  | receivedClassified (email_id : Option String) (db_id : Option Nat)
  | receivedOnly (email_id : Option String) (db_id : Option Nat)
  | noProcessingService
deriving DecidableEq

/-- `IngestionService.receive_email`.  Validation happens before any state is
touched; the duplicate check precedes the raw insert; the raw insert precedes
classification.  A background classification task (async mode) is modelled as
running to completion before the call returns, which is the sequential
scheduling the claims quantify over; the spawn itself happens during the
call either way. -/
def IngestionService.receiveEmail (cfg : IngestCfg) (st : IngestState) (e : EmailData) :
    Except String ReceiveOutcome × IngestState :=
  let subject := strTrim e.subject
  let body := strTrim e.body
  if subject = "" && body = "" then
    (.error "Email must have subject or body content", st)
  else
    let e := { e with
      subject := if subject = "" then "(No Subject)" else e.subject
      sender := if strTrim e.sender = "" then "unknown" else e.sender
      body := if body = "" then "" else e.body }
    if !cfg.hasProcessing then (.ok .noProcessingService, st)
    else if cfg.hasDbLogger && DatabaseLogger.emailExists st.records e.email_id then
      (.ok (.skippedDuplicate e.email_id), st)
    else
      let inserted : Option Nat × IngestState :=
        if cfg.hasDbLogger then
          (some (st.records.length + 1),
            { st with records := st.records ++
                [{ email_id := e.email_id, subject := e.subject, sender := e.sender
                   body := e.body, status := "pending" }] })
        else (none, st)
      let dbId := inserted.1
      let st := inserted.2
      let st := if cfg.mongoEnabled then { st with mongoIngests := st.mongoIngests + 1 } else st
      if cfg.autoClassify then
        if cfg.classifyAsync then
          (.ok (.receivedQueued e.email_id dbId), IngestionService.classifyAndUpdate cfg st e dbId)
        else
          (.ok (.receivedClassified e.email_id dbId), IngestionService.classifyAndUpdate cfg st e dbId)
      else (.ok (.receivedOnly e.email_id dbId), st)

/-! ## `ActionService` (src/backend/app/services/action_service.py) -/

/-- One entry of the static per-category fallback table `action_rules`. -/
structure FallbackRule where
  route : String
  tag : String
  priority : String
deriving DecidableEq

/-- The table built in `ActionService.__init__`. -/
def ActionService.defaultActionRules : List (String × FallbackRule) :=
  [("spam", ⟨"spam", "spam", "low"⟩),
   ("important", ⟨"inbox", "important", "high"⟩),
   ("promotion", ⟨"promotions", "promotion", "medium"⟩),
   ("social", ⟨"social", "social", "low"⟩),
   ("updates", ⟨"updates", "update", "medium"⟩)]

/-- Module-level constant of `action_service.py` (the advanced engines are
compiled out: "Simplified action service without advanced features"). -/
def ADVANCED_RULES_AVAILABLE : Bool := false

/-- Module-level constant of `action_service.py`. -/
def ENTERPRISE_ROUTING_AVAILABLE : Bool := false

/-- An `ActionService` instance. -/
structure ActionService where
  action_rules : List (String × FallbackRule)
  use_advanced_rules : Bool
  advanced_rules : Option AdvancedActionRules := none
  use_enterprise_routing : Bool
  enterprise_routing : Option (List ERule) := none

/-- `ActionService.__init__`: the engine flags are AND-ed with the module
constants, so both engines are disabled in this build. -/
def ActionService.init (useAdvancedRules : Bool) : ActionService :=
  { action_rules := ActionService.defaultActionRules
    use_advanced_rules := useAdvancedRules && ADVANCED_RULES_AVAILABLE
    advanced_rules := none
    use_enterprise_routing := ENTERPRISE_ROUTING_AVAILABLE
    enterprise_routing := none }

/-- The classification dict received by `handle_classification`
(`decision`/`category` may each be absent). -/
structure HCls where
  decision : Option String := none
  category : Option String := none
  confidence : ℚ := 0
  probabilities : List (String × ℚ) := []
  urgency : Option String := none
  sentiment : Option String := none
deriving DecidableEq

/-- View of the classification dict through the rule engines' `.get` calls. -/
def HCls.toCls (c : HCls) : Cls :=
  { category := c.category.getD "", confidence := c.confidence
    probabilities := c.probabilities, urgency := c.urgency, sentiment := c.sentiment }

/-- Python `a or b` on optional strings (an empty string is falsy). -/
def pyOrStr : Option String → Option String → Option String
  | some s, b => if s = "" then b else some s
  | none, b => b

/-- Python truthiness of a rule value. -/
def pyTruthy : CVal → Bool
  | .s v => v ≠ ""
  | .n q => q ≠ 0
  | .b bv => bv
  | .ls l => !l.isEmpty

/-- Python `a or b` on optional rule values. -/
def pyOrCVal : Option CVal → Option CVal → Option CVal
  | some v, b => if pyTruthy v then some v else b
  | none, b => b

/-- One entry of the dispatcher's `actions_taken` list (each constructor is
one of the dict shapes appended by `handle_classification`; the constant
`"status": "completed"` is omitted). -/
inductive TakenAction where
  | route (destination : String)
  | tag (t : String)
  | markAsSpam
  | setPriorityHigh
  | fromRouting (action : String) (value : Option CVal)
  | fromAdvanced (action : String) (value : CVal)
deriving DecidableEq

/-- The `result` dict of `handle_classification`. -/
structure HCResult where
  category : Option String
  confidence : ℚ
  actions_taken : List TakenAction
  advanced_rules_applied : Bool
  enterprise_routing_applied : Bool := false
  rules_matched : Option Nat := none
  rules_applied : List AppliedRule := []
deriving DecidableEq

/-- The two engine blocks of `handle_classification` (everything before the
static fallback).  The enterprise block runs only when enterprise routing is
enabled, present, and the classification carries an `urgency` key; the
advanced block only when the enterprise block did not apply and the advanced
engine is enabled and present. -/
def ActionService.handlePreFallback (svc : ActionService) (cls : HCls)
    (email : EmailD) : HCResult :=
  let category := pyOrStr cls.decision cls.category
  let base : HCResult :=
    { category := category, confidence := cls.confidence
      actions_taken := [], advanced_rules_applied := false }
  let r1 :=
    if svc.use_enterprise_routing && svc.enterprise_routing.isSome && cls.urgency.isSome then
      match svc.enterprise_routing with
      | some rules =>
        let rr := EnterpriseRoutingEngine.routeEmail rules email cls.toCls
        { base with
          enterprise_routing_applied := true
          rules_matched := some rr.rules_matched
          rules_applied := rr.rules_applied
          actions_taken := rr.actions.map fun a =>
            .fromRouting a.ty (pyOrCVal (a.payload.lookup "to") (a.payload.lookup "value")) }
      | none => base
    else base
  if !r1.enterprise_routing_applied && svc.use_advanced_rules && svc.advanced_rules.isSome then
    match svc.advanced_rules with
    | some ar =>
      let res := ar.processEmail email cls.toCls
      { r1 with
        advanced_rules_applied := true
        rules_matched := some res.rules_matched
        rules_applied := res.rules_applied
        actions_taken := r1.actions_taken ++
          res.actions_taken.map fun a => .fromAdvanced a.action a.value }
    | none => r1
  else r1

/-- The static fallback block: the per-category route and tag (with the
inbox/unclassified default), plus the spam and important extras. -/
def ActionService.fallbackActions (svc : ActionService) (category : Option String)
    (confidence : ℚ) : List TakenAction :=
  let rule := (match category with
    | some c => svc.action_rules.lookup c
    | none => none).getD ⟨"inbox", "unclassified", "medium"⟩
  [.route rule.route, .tag rule.tag] ++
    (if category = some "spam" && decide ((0.8 : ℚ) < confidence) then [.markAsSpam]
     else if category = some "important" && decide ((0.7 : ℚ) < confidence) then [.setPriorityHigh]
     else [])

/-- `ActionService.handle_classification`: engine blocks, then the static
fallback whenever the advanced engine did not apply or no action was
produced. -/
def ActionService.handleClassification (svc : ActionService) (cls : HCls)
    (email : EmailD) : HCResult :=
  let r := svc.handlePreFallback cls email
  if !r.advanced_rules_applied || r.actions_taken.isEmpty then
    { r with actions_taken := r.actions_taken ++
        svc.fallbackActions r.category cls.confidence }
  else r

/-! ## Theorems settling the claims -/

/-- C10: a rule whose condition list is empty never matches (`evaluate_rule`
returns false rather than the vacuous truth of AND over no conditions), and a
rule with `enabled = false` never matches. -/
theorem C10_empty_or_disabled_rule_never_matches
    (rs : String → String → Bool) (rule : ARule) (email : EmailD) (cls : Cls) :
    (rule.conditions = [] → AdvancedActionRules.evaluateRule rs rule email cls = false) ∧
    (rule.enabled = false → AdvancedActionRules.evaluateRule rs rule email cls = false) := by
  constructor
  · intro h
    cases he : rule.enabled <;>
      simp [AdvancedActionRules.evaluateRule, h, he]
  · intro h
    simp [AdvancedActionRules.evaluateRule, h]

/-- Witness for C10 at concrete rules: one enabled rule with no conditions and
one disabled rule with a satisfiable condition, neither of which matches. -/
theorem C10_empty_or_disabled_rule_never_matches_witness :
    AdvancedActionRules.evaluateRule (fun _ _ => false)
      { id := "no_conditions", name := "No Conditions", conditions := []
        actions := [{ ty := "tag", value := .s "x" }] }
      {} { category := "spam" } = false ∧
    AdvancedActionRules.evaluateRule (fun _ _ => false)
      { id := "disabled", name := "Disabled", enabled := false
        conditions := [{ ctype := "category", op := "equals", value := .s "spam" }]
        actions := [{ ty := "route", value := .s "spam" }] }
      {} { category := "spam" } = false :=
  ⟨(C10_empty_or_disabled_rule_never_matches (fun _ _ => false) _ {} _).1 rfl,
   (C10_empty_or_disabled_rule_never_matches (fun _ _ => false) _ {} _).2 rfl⟩

/-- C4: a message whose subject and body are both empty after trimming is
rejected with the validation error before any state change: no raw record is
inserted, no Mongo ingest happens, and classification is never invoked (the
entire ingest state is returned unchanged). -/
theorem C4_empty_message_rejected_before_persistence
    (cfg : IngestCfg) (st : IngestState) (e : EmailData)
    (hs : strTrim e.subject = "") (hb : strTrim e.body = "") :
    IngestionService.receiveEmail cfg st e =
      (.error "Email must have subject or body content", st) := by
  simp [IngestionService.receiveEmail, hs, hb]

/-- Witness for C4: a whitespace-only message against a live configuration. -/
theorem C4_empty_message_rejected_before_persistence_witness :
    IngestionService.receiveEmail
      { analyzeOutcome := fun _ _ _ => .ok {} }
      { records := [{ email_id := some "m1", subject := "old", sender := "s", body := "b" }] }
      { subject := "   ", body := "", sender := "boss@x.com", email_id := some "m2" } =
      (.error "Email must have subject or body content",
        { records := [{ email_id := some "m1", subject := "old", sender := "s", body := "b" }] }) :=
  C4_empty_message_rejected_before_persistence _ _ _ (by decide) (by decide)

/-- C9: on a cache hit, `analyze_email` returns the cached value with only the
timestamp refreshed and `from_cache` set, and the state — cache contents,
classifier-invocation count, classification log, dispatched actions — is
completely unchanged: no classifier stage runs, nothing is logged, and no
routing or action dispatch occurs.  The fingerprint is built from subject and
body only, so a message with identical content but a different external id
takes exactly this path. -/
theorem C9_cache_hit_is_pure
    (cfg : ProcCfg) (st : ProcState) (subject body : String) (sender : Option String)
    (hasCurrentDbId : Bool) (now : String) (v : AnalysisResult)
    (h : st.cache.lookup (subject ++ body) = some v) :
    ProcessingService.analyzeEmail cfg st subject body sender hasCurrentDbId now =
      (.ok { v with timestamp := now, from_cache := true }, st) := by
  simp [ProcessingService.analyzeEmail, h]

/-- Cached value used by the C9 witness. -/
def vC9 : AnalysisResult :=
  { category := "Spam", decision := "Spam", confidence := 0.97
    probabilities := [("Spam", 0.97)], sentiment_score := 0
    sentiment_label := "Neutral", entities := [], timestamp := "t0" }

/-- Processing-service configuration used by cache witnesses. -/
def cfgProcW : ProcCfg :=
  { isSklearnPipeline := false
    customClassify := fun _ _ _ => { category := "General_Feedback", confidence := 0.5, probabilities := [] }
    sentiment := fun _ _ => { sentiment := "Neutral", confidence := 0 } }

/-- Witness for C9: a concrete hit returns the cached value and leaves the
state untouched. -/
theorem C9_cache_hit_is_pure_witness :
    ProcessingService.analyzeEmail cfgProcW
      { cache := [("sb", vC9)], classifierCalls := 3 } "s" "b" none false "now" =
      (.ok { vC9 with timestamp := "now", from_cache := true },
        { cache := [("sb", vC9)], classifierCalls := 3 }) :=
  C9_cache_hit_is_pure cfgProcW _ "s" "b" none false "now" vC9 rfl

/-- Configuration refuting C3: every stage raises, and the terminal TF-IDF
stage cannot load or train its model. -/
def cfgAllStagesFail : ChainConfig :=
  { enterpriseActive := true
    enterpriseOutcome := .error "enterprise classifier raised"
    useBert := true
    bertPresent := true
    bertOutcome := .error "bert classifier raised"
    modelState := none
    loadOutcome := .error "joblib load failed" }

/-- Counterexample to C3 as stated: when the enterprise stage, the BERT stage
and the TF-IDF model load all fail, `classify` propagates the load exception
to its caller instead of returning a result — the terminal baseline stage is
not unconditionally answer-producing. -/
theorem C3_counterexample :
    EmailClassifier.classify cfgAllStagesFail "subject" "body" none =
      .error "joblib load failed" := rfl

/-- The TF-IDF baseline always produces a result once a model is at hand. -/
theorem tfidfPredict_isOk (m : TfidfModel) (subject body : String) :
    ∃ r, tfidfPredict m subject body = .ok r := by
  unfold tfidfPredict
  by_cases h : strTrim (EmailClassifier.combineSubjectBody subject body) = "" <;> simp [h]

/-- C3 (amended): `classify` never raises provided the terminal TF-IDF stage
has a model loaded or can load/train one; failures of the enterprise and BERT
stages are caught internally and the chain advances.  (Only when the model
load itself fails does the exception propagate — see the counterexample.) -/
theorem C3_amended_classify_total_when_baseline_loads
    (c : ChainConfig) (subject body : String) (sender : Option String) (m : TfidfModel)
    (h : c.modelState = some m ∨ (c.modelState = none ∧ c.loadOutcome = .ok (some m))) :
    ∃ r, EmailClassifier.classify c subject body sender = .ok r := by
  have hAfter : c.modelAfterLoad = .ok (some m) := by
    rcases h with h | ⟨h1, h2⟩
    · simp [ChainConfig.modelAfterLoad, h]
    · simp [ChainConfig.modelAfterLoad, h1, h2]
  have hFrom : ∃ r, classifyTfidfFrom c c.modelState subject body = .ok r := by
    rcases h with h | ⟨h1, h2⟩
    · simp only [classifyTfidfFrom, h]
      exact tfidfPredict_isOk m subject body
    · simp only [classifyTfidfFrom, h1, h2]
      exact tfidfPredict_isOk m subject body
  have hFail : ∃ r, bertFailPath c subject body = .ok r := by
    simp only [bertFailPath, hAfter]
    exact tfidfPredict_isOk m subject body
  have hBert : ∃ r, classifyBertStage c subject body = .ok r := by
    unfold classifyBertStage
    split
    · cases hbo : c.bertOutcome with
      | ok r =>
        dsimp only
        by_cases hr : r.category = "unknown" ∨ r.confidence = 0
        · rw [if_pos hr]
          exact hFail
        · rw [if_neg hr]
          exact ⟨_, rfl⟩
      | error e =>
        dsimp only
        exact hFail
    · split
      · rw [hAfter]
        dsimp only
        rw [show classifyTfidfFrom c (some m) subject body = tfidfPredict m subject body from rfl]
        exact tfidfPredict_isOk m subject body
      · exact hFrom
  unfold EmailClassifier.classify
  split
  · cases heo : c.enterpriseOutcome with
    | ok r =>
      dsimp only
      by_cases hc : 0 < r.confidence
      · rw [if_pos hc]
        exact ⟨_, rfl⟩
      · rw [if_neg hc]
        exact hBert
    | error e =>
      dsimp only
      exact hBert
  · exact hBert

/-- Witness for C3 (amended): the enterprise and BERT stages both raise, the
model is loaded, and `classify` still returns a result. -/
theorem C3_amended_classify_total_when_baseline_loads_witness :
    (EmailClassifier.classify
      { cfgAllStagesFail with
        modelState := some { predict := fun _ => "spam", predictProba := fun _ => [("spam", 1)] } }
      "subject" "body" none).isOk = true := by
  obtain ⟨r, hr⟩ := C3_amended_classify_total_when_baseline_loads
    { cfgAllStagesFail with
      modelState := some { predict := fun _ => "spam", predictProba := fun _ => [("spam", 1)] } }
    "subject" "body" none
    { predict := fun _ => "spam", predictProba := fun _ => [("spam", 1)] }
    (Or.inl rfl)
  rw [hr]
  rfl

/-- The zero-confidence `"unknown"` result returned by the TF-IDF stage for
empty preprocessed text. -/
def emptyTextResult : StageResult :=
  { category := "unknown", confidence := 0, probabilities := [] }

/-- Chain configuration refuting C6: the enterprise and BERT stages are
inactive (their imports failed), the TF-IDF model is loaded. -/
def cfgTerminalOnly : ChainConfig :=
  { enterpriseActive := false
    useBert := false
    modelState := some { predict := fun _ => "spam", predictProba := fun _ => [("spam", 1)] } }

/-- Counterexample to C6 as stated: for an empty message the terminal TF-IDF
stage's result is returned to the caller (accepted) even though its confidence
is 0 and its category is the sentinel `"unknown"` — acceptance is not
equivalent to `confidence > 0 ∧ category ≠ "unknown"` for every stage. -/
theorem C6_counterexample :
    EmailClassifier.classify cfgTerminalOnly "" "" none = .ok emptyTextResult ∧
    emptyTextResult.confidence = 0 ∧ emptyTextResult.category = "unknown" :=
  ⟨rfl, rfl, rfl⟩

/-- C6 (amended): the acceptance tests the chain actually performs.  The
enterprise stage's result is accepted exactly when its confidence is positive
(its category is not examined); the BERT stage's result is accepted exactly
when its category is not `"unknown"` and its confidence is nonzero; the
terminal TF-IDF stage's result is always returned once a model is at hand,
including the zero-confidence `"unknown"` result for empty text. -/
theorem C6_amended_stage_acceptance (c : ChainConfig) (subject body : String)
    (sender : Option String) :
    (∀ r, c.enterpriseActive = true → c.enterpriseOutcome = .ok r →
      EmailClassifier.classify c subject body sender =
        (if 0 < r.confidence then .ok (withChainDefaults r)
         else classifyBertStage c subject body)) ∧
    (∀ r, c.useBert = true → c.bertPresent = true → c.bertOutcome = .ok r →
      classifyBertStage c subject body =
        (if r.category = "unknown" ∨ r.confidence = 0 then bertFailPath c subject body
         else .ok (EmailClassifier.mapBertCategories r))) ∧
    (∀ m, ∃ res, tfidfPredict m subject body = .ok res) := by
  refine ⟨?_, ?_, ?_⟩
  · intro r hea heo
    unfold EmailClassifier.classify
    rw [if_pos hea, heo]
  · intro r hu hp hbo
    unfold classifyBertStage
    rw [if_pos (by rw [hu, hp]; rfl), hbo]
  · intro m
    exact tfidfPredict_isOk m subject body

/-- Witness for C6 (amended) at a concrete configuration: an enterprise result
with positive confidence is accepted, a BERT `"unknown"` result is rejected in
favour of the fail path, and the terminal stage answers. -/
theorem C6_amended_stage_acceptance_witness :
    (EmailClassifier.classify
        { cfgTerminalOnly with
          enterpriseActive := true
          enterpriseOutcome := .ok { category := "hr", confidence := 0.9 } }
        "s" "b" none =
      (if (0 : ℚ) < (0.9 : ℚ) then
        .ok (withChainDefaults { category := "hr", confidence := 0.9 })
       else classifyBertStage
        { cfgTerminalOnly with
          enterpriseActive := true
          enterpriseOutcome := .ok { category := "hr", confidence := 0.9 } } "s" "b")) ∧
    (∃ res, tfidfPredict
      { predict := fun _ => "spam", predictProba := fun _ => [("spam", 1)] } "s" "b" = .ok res) := by
  constructor
  · exact (C6_amended_stage_acceptance _ "s" "b" none).1
      { category := "hr", confidence := 0.9 } rfl rfl
  · exact (C6_amended_stage_acceptance
      { cfgTerminalOnly with
        enterpriseActive := true
        enterpriseOutcome := .ok { category := "hr", confidence := 0.9 } } "s" "b" none).2.2 _

/-- Summing a probability dict after dividing every value by `t`. -/
theorem sumVals_map_div (l : List (String × ℚ)) (t : ℚ) :
    sumVals (l.map fun kv => (kv.1, kv.2 / t)) = sumVals l / t := by
  induction l with
  | nil => simp [sumVals]
  | cons kv rest ih => simp [sumVals, add_div] at ih ⊢; simp [ih]

/-- Summing a probability dict after multiplying every value by `c`. -/
theorem sumVals_map_mul (l : List (String × ℚ)) (c : ℚ) :
    sumVals (l.map fun kv => (kv.1, kv.2 * c)) = sumVals l * c := by
  induction l with
  | nil => simp [sumVals]
  | cons kv rest ih => simp [sumVals, add_mul] at ih ⊢; simp [ih]

/-- C2 (amended): whenever the boosted-and-clamped scores have a positive
total, the probabilities map returned by the zero-shot classifier sums to
exactly 100 — the values are normalised to sum to 1 and then scaled by 100
(percent scale) on the way out, while `confidence` keeps the 0–1 scale. -/
theorem C2_amended_zero_shot_probabilities_sum_100 (modelOut boosts : List (String × ℚ))
    (h : 0 < sumVals (modelOut.map fun lv =>
      (lv.1, clampScore (lv.2 + (boosts.lookup lv.1).getD 0)))) :
    sumVals (EnterpriseEmailClassifier.classifyZeroShot modelOut boosts).probabilities = 100 := by
  unfold EnterpriseEmailClassifier.classifyZeroShot
  dsimp only
  rw [if_pos h, sumVals_map_mul, sumVals_map_div, div_self (ne_of_gt h)]
  norm_num

/-- A zero-shot model output over the ten department labels. -/
def zsExampleOut : List (String × ℚ) :=
  [("sales", 0.55), ("hr", 0.05), ("finance", 0.05), ("it_support", 0.05),
   ("legal", 0.05), ("marketing", 0.05), ("customer_service", 0.05),
   ("operations", 0.05), ("executive", 0.05), ("general", 0.05)]

/-- Counterexample to C2 as stated: on a concrete model output the returned
probabilities sum to 100, not approximately 1 — off by 99, far beyond any
small epsilon. -/
theorem C2_counterexample :
    sumVals (EnterpriseEmailClassifier.classifyZeroShot zsExampleOut []).probabilities = 100 ∧
    ¬ |(100 : ℚ) - 1| ≤ 1 / 100 := by
  constructor
  · norm_num [EnterpriseEmailClassifier.classifyZeroShot, zsExampleOut, sumVals, clampScore,
      List.lookup]
  · norm_num

/-- Witness for C2 (amended) at a concrete boosted input. -/
theorem C2_amended_zero_shot_probabilities_sum_100_witness :
    sumVals (EnterpriseEmailClassifier.classifyZeroShot
      [("sales", 0.7), ("hr", 0.2), ("finance", 0.1)] [("sales", 0.12)]).probabilities = 100 := by
  refine C2_amended_zero_shot_probabilities_sum_100 _ _ ?_
  norm_num [sumVals, clampScore, List.lookup,
    show ("sales" == "sales") = true from rfl,
    show ("hr" == "sales") = false from rfl,
    show ("finance" == "sales") = false from rfl]

/-- C1 (amended, part holding on the code): in `EnterpriseRoutingEngine`, for
a rule set of two rules that both match — the priority-1000 rule carrying
`stop_processing` and the other rule at priority 100 — `route_email` over the
engine-sorted rule list applies exactly the priority-1000 rule: its actions
are the whole result and the lower-priority rule is never reached. -/
theorem C1_amended_route_email_stops_at_high_priority_rule
    (r1 r2 : ERule) (email : EmailD) (cls : Cls)
    (hp1 : r1.priority = 1000) (hstop : r1.stop_processing = true) (hp2 : r2.priority = 100)
    (hc1 : r1.condition
      { subject := email.subject, body := email.body, sender := email.sender
        email_id := email.email_id } cls = true)
    (hc2 : r2.condition
      { subject := email.subject, body := email.body, sender := email.sender
        email_id := email.email_id } cls = true) :
    EnterpriseRoutingEngine.routeEmail (EnterpriseRoutingEngine.sortRules [r1, r2]) email cls =
      { rules_matched := 1
        rules_applied := [{ rule_id := r1.id, rule_name := r1.name, priority := r1.priority }]
        actions := r1.actions.materialize cls } := by
  have := hc2
  have hsort : EnterpriseRoutingEngine.sortRules [r1, r2] = [r1, r2] := by
    simp [EnterpriseRoutingEngine.sortRules, sortByKeyDesc, insertByKeyDesc, hp1, hp2]
  rw [hsort]
  unfold EnterpriseRoutingEngine.routeEmail
  simp [routeEmailLoop, hc1, hstop]

/-- The `legal_failsafe` rule (keyword condition, `stop_processing`). -/
def erLegalFailsafe : ERule :=
  { id := "legal_failsafe", name := "Legal Failsafe Override", priority := 1000
    condition := fun e _ => strContainsSub (strLower e.body) "legal notice"
    actions := .static
      [{ ty := "forward", payload := [("to", .s "legal@company.com")] },
       { ty := "tag", payload := [("value", .s "LEGAL_HOLD")] },
       { ty := "priority", payload := [("value", .s "critical")] }]
    stop_processing := true }

/-- The `spam_handler` rule (priority 100). -/
def erSpamHandler : ERule :=
  { id := "spam_handler", name := "Spam Handling", priority := 100
    condition := fun _ c => c.category == "Spam"
    actions := .static
      [{ ty := "route", payload := [("value", .s "Junk")] },
       { ty := "delete", payload := [("value", .b false)] },
       { ty := "tag", payload := [("value", .s "Spam")] }]
    stop_processing := true }

/-- Witness for C1 (amended): a message matching both concrete rules is
routed by the failsafe alone. -/
theorem C1_amended_route_email_stops_at_high_priority_rule_witness :
    EnterpriseRoutingEngine.routeEmail
      (EnterpriseRoutingEngine.sortRules [erLegalFailsafe, erSpamHandler])
      { subject := "Notice", body := "This is a LEGAL notice", sender := "law@firm.com" }
      { category := "Spam" } =
      { rules_matched := 1
        rules_applied := [{ rule_id := "legal_failsafe", rule_name := "Legal Failsafe Override"
                            priority := 1000 }]
        actions :=
          [{ ty := "forward", payload := [("to", .s "legal@company.com")] },
           { ty := "tag", payload := [("value", .s "LEGAL_HOLD")] },
           { ty := "priority", payload := [("value", .s "critical")] }] } :=
  C1_amended_route_email_stops_at_high_priority_rule erLegalFailsafe erSpamHandler
    { subject := "Notice", body := "This is a LEGAL notice", sender := "law@firm.com" }
    { category := "Spam" } rfl rfl rfl (by decide) (by decide)

/-- A priority-1000 rule carrying `stop_processing = true`, as the claim
describes, for the `AdvancedActionRules` engine. -/
def arFailsafeHigh : ARule :=
  { id := "failsafe_high", name := "Failsafe High", priority := 1000
    conditions := [{ ctype := "category", op := "equals", value := .s "spam" }]
    actions := [{ ty := "tag", value := .s "LEGAL_HOLD" }]
    stop_processing := true }

/-- A matching enabled rule at priority 100. -/
def arSpamLow : ARule :=
  { id := "spam_low", name := "Spam Low", priority := 100
    conditions := [{ ctype := "category", op := "equals", value := .s "spam" }]
    actions := [{ ty := "route", value := .s "spam" }] }

/-- The two-rule engine state of the counterexample. -/
def arStopIgnored : AdvancedActionRules := { rules := [arFailsafeHigh, arSpamLow] }

/-- Counterexample to C1 as stated: `AdvancedActionRules.process_email` never
reads `stop_processing` — with both rules matching, the result contains the
lower-priority rule's action as well, not only the priority-1000 rule's
actions. -/
theorem C1_counterexample :
    (arStopIgnored.processEmail {} { category := "spam" }).actions_taken =
      [{ action := "tag", value := .s "LEGAL_HOLD" },
       { action := "route", value := .s "spam" }] ∧
    { action := "route", value := .s "spam" } ∈
      (arStopIgnored.processEmail {} { category := "spam" }).actions_taken ∧
    ({ action := "route", value := .s "spam" } ∈
      AdvancedActionRules.applyActions arFailsafeHigh → False) ∧
    (arStopIgnored.processEmail {} { category := "spam" }).rules_matched = 2 := by
  decide

/-- The engine blocks never change the `category` field: it stays
`classification.get("decision") or classification.get("category")`. -/
theorem handlePreFallback_category (svc : ActionService) (cls : HCls) (email : EmailD) :
    (svc.handlePreFallback cls email).category = pyOrStr cls.decision cls.category := by
  unfold ActionService.handlePreFallback
  dsimp only
  repeat' split
  all_goals rfl

/-- The fallback block never changes the `category` field either. -/
theorem handleClassification_category (svc : ActionService) (cls : HCls) (email : EmailD) :
    (svc.handleClassification cls email).category =
      (svc.handlePreFallback cls email).category := by
  unfold ActionService.handleClassification
  dsimp only
  split <;> rfl

/-- C8: when the rule engines produced zero actions (no rule matched, or the
engines are disabled — in this build they always are), the dispatcher's result
contains at least the static per-category fallback actions: the route and tag
from the `action_rules` table (defaulting to inbox/unclassified for a category
not in the table), plus `mark_as_spam` when the category is spam with
confidence above 0.8 and a high-priority action when the category is important
with confidence above 0.7. -/
theorem C8_fallback_minimum_actions (svc : ActionService) (cls : HCls) (email : EmailD)
    (h : (svc.handlePreFallback cls email).actions_taken = []) :
    (TakenAction.route ((match pyOrStr cls.decision cls.category with
        | some c => svc.action_rules.lookup c
        | none => none).getD ⟨"inbox", "unclassified", "medium"⟩).route ∈
      (svc.handleClassification cls email).actions_taken) ∧
    (TakenAction.tag ((match pyOrStr cls.decision cls.category with
        | some c => svc.action_rules.lookup c
        | none => none).getD ⟨"inbox", "unclassified", "medium"⟩).tag ∈
      (svc.handleClassification cls email).actions_taken) ∧
    (pyOrStr cls.decision cls.category = some "spam" → (0.8 : ℚ) < cls.confidence →
      TakenAction.markAsSpam ∈ (svc.handleClassification cls email).actions_taken) ∧
    (pyOrStr cls.decision cls.category = some "important" → (0.7 : ℚ) < cls.confidence →
      TakenAction.setPriorityHigh ∈ (svc.handleClassification cls email).actions_taken) := by
  have hcat := handlePreFallback_category svc cls email
  have hmain : (svc.handleClassification cls email).actions_taken =
      svc.fallbackActions (pyOrStr cls.decision cls.category) cls.confidence := by
    unfold ActionService.handleClassification
    dsimp only
    rw [if_pos (by rw [h]; simp), h, hcat]
    simp
  rw [hmain]
  unfold ActionService.fallbackActions
  dsimp only
  refine ⟨by simp, by simp, ?_, ?_⟩
  · intro hc hconf
    rw [if_pos (by rw [hc]; simpa using hconf)]
    simp
  · intro hc hconf
    rw [if_neg (by rw [hc]; simp), if_pos (by rw [hc]; simpa using hconf)]
    simp

/-- Witness for C8: in the shipped build (engines compiled out) a spam
classification at confidence 0.9 receives the route, tag and mark-as-spam
fallback actions. -/
theorem C8_fallback_minimum_actions_witness :
    ((ActionService.init true).handlePreFallback
        { decision := some "spam", confidence := 0.9 } {}).actions_taken = [] ∧
    TakenAction.route "spam" ∈ ((ActionService.init true).handleClassification
        { decision := some "spam", confidence := 0.9 } {}).actions_taken ∧
    TakenAction.tag "spam" ∈ ((ActionService.init true).handleClassification
        { decision := some "spam", confidence := 0.9 } {}).actions_taken ∧
    TakenAction.markAsSpam ∈ ((ActionService.init true).handleClassification
        { decision := some "spam", confidence := 0.9 } {}).actions_taken := by
  have h : ((ActionService.init true).handlePreFallback
      { decision := some "spam", confidence := 0.9 } {}).actions_taken = [] := rfl
  obtain ⟨h1, h2, h3, _⟩ := C8_fallback_minimum_actions (ActionService.init true)
    { decision := some "spam", confidence := 0.9 } {} h
  exact ⟨h, h1, h2, h3 rfl (by norm_num)⟩

/-- Storing a fresh key into a cache below capacity appends it, evicting
nothing. -/
theorem storeInCache_fresh_below_capacity (c : ResultCache) (k : String) (v : AnalysisResult)
    (hlen : c.length < ProcessingService.cacheMaxSize) (hfresh : ∀ p ∈ c, p.1 ≠ k) :
    ProcessingService.storeInCache c k v = c ++ [(k, v)] := by
  have hany : c.any (fun p => p.1 = k) = false := by
    simp only [List.any_eq_false, decide_eq_true_eq]
    exact hfresh
  simp [ProcessingService.storeInCache, dictSet, Nat.not_le.mpr hlen, hany]

/-- Storing a fresh key into a cache exactly at capacity evicts the single
oldest entry and appends the new one. -/
theorem storeInCache_fresh_at_capacity (c : ResultCache) (k : String) (v : AnalysisResult)
    (hlen : c.length = ProcessingService.cacheMaxSize) (hfresh : ∀ p ∈ c, p.1 ≠ k) :
    ProcessingService.storeInCache c k v = c.tail ++ [(k, v)] := by
  have hany : c.tail.any (fun p => p.1 = k) = false := by
    simp only [List.any_eq_false, decide_eq_true_eq]
    exact fun p hp => hfresh p (List.mem_of_mem_tail hp)
  simp [ProcessingService.storeInCache, dictSet, Nat.le_of_eq hlen.symm, hany]

/-- Folding fresh distinct keys into a cache that stays within capacity
appends them in insertion order. -/
theorem cacheFold_within_capacity (f : String → AnalysisResult) :
    ∀ (keys : List String) (c : ResultCache), keys.Nodup →
      (∀ k ∈ keys, ∀ p ∈ c, p.1 ≠ k) →
      c.length + keys.length ≤ ProcessingService.cacheMaxSize →
      keys.foldl (fun acc k => ProcessingService.storeInCache acc k (f k)) c =
        c ++ keys.map fun k => (k, f k)
  | [], c, _, _, _ => by simp
  | k :: rest, c, hnd, hfresh, hlen => by
    rw [List.foldl_cons]
    rw [storeInCache_fresh_below_capacity c k (f k)
      (by simp at hlen; omega) (hfresh k (List.mem_cons_self k rest))]
    rw [cacheFold_within_capacity f rest (c ++ [(k, f k)]) (List.Nodup.of_cons hnd)
      (by
        intro k' hk' p hp
        rcases List.mem_append.1 hp with hp | hp
        · exact hfresh k' (List.mem_cons_of_mem k hk') p hp
        · simp at hp
          subst hp
          intro hkk
          have hkeq : k = k' := hkk
          rw [hkeq] at hnd
          exact (List.nodup_cons.1 hnd).1 hk')
      (by simp at hlen ⊢; omega)]
    simp

/-- Folding fresh distinct keys into a nonempty cache that overflows capacity
by exactly one entry drops the single oldest entry and appends the keys in
insertion order. -/
theorem cacheFold_overflow_by_one (f : String → AnalysisResult) :
    ∀ (rest : List String) (k : String) (c : ResultCache), (k :: rest).Nodup →
      (∀ k' ∈ k :: rest, ∀ p ∈ c, p.1 ≠ k') →
      c.length + rest.length = ProcessingService.cacheMaxSize →
      c ≠ [] →
      (k :: rest).foldl (fun acc k => ProcessingService.storeInCache acc k (f k)) c =
        c.tail ++ (k :: rest).map fun k => (k, f k)
  | [], k, c, _, hfresh, hlen, _ => by
    rw [List.foldl_cons, List.foldl_nil]
    rw [storeInCache_fresh_at_capacity c k (f k) (by simpa using hlen)
      (hfresh k (List.mem_cons_self k []))]
    simp
  | k2 :: rest, k, c, hnd, hfresh, hlen, hne => by
    rw [List.foldl_cons]
    rw [storeInCache_fresh_below_capacity c k (f k)
      (by simp at hlen; omega) (hfresh k (List.mem_cons_self k (k2 :: rest)))]
    rw [cacheFold_overflow_by_one f rest k2 (c ++ [(k, f k)]) (List.Nodup.of_cons hnd)
      (by
        intro k' hk' p hp
        rcases List.mem_append.1 hp with hp | hp
        · exact hfresh k' (List.mem_cons_of_mem k hk') p hp
        · simp at hp
          subst hp
          intro hkk
          have hkeq : k = k' := hkk
          rw [hkeq] at hnd
          exact (List.nodup_cons.1 hnd).1 hk')
      (by simp at hlen ⊢; omega)
      (by simp)]
    obtain ⟨a, c₀, rfl⟩ : ∃ a c₀, c = a :: c₀ := by
      cases c with
      | nil => exact absurd rfl hne
      | cons a c₀ => exact ⟨a, c₀, rfl⟩
    simp

/-- Looking up an absent key in a key-value image yields nothing. -/
theorem lookup_mapPair_of_not_mem (f : String → AnalysisResult) :
    ∀ (keys : List String) (k : String), k ∉ keys →
      (keys.map fun k' => (k', f k')).lookup k = none
  | [], _, _ => rfl
  | k' :: rest, k, hk => by
    have hne : k ≠ k' := fun h => hk (h ▸ List.mem_cons_self k' rest)
    have hbeq : (k == k') = false := beq_eq_false_iff_ne.mpr hne
    simp only [List.map_cons, List.lookup, hbeq]
    exact lookup_mapPair_of_not_mem f rest k fun h => hk (List.mem_cons_of_mem k' h)

/-- Looking up a present key in a duplicate-free key-value image yields its
value. -/
theorem lookup_mapPair_of_mem (f : String → AnalysisResult) :
    ∀ (keys : List String) (k : String), keys.Nodup → k ∈ keys →
      (keys.map fun k' => (k', f k')).lookup k = some (f k)
  | [], k, _, hk => absurd hk (List.not_mem_nil k)
  | k' :: rest, k, hnd, hk => by
    by_cases hkk : k = k'
    · subst hkk
      simp [List.lookup]
    · have hkrest : k ∈ rest := by
        rcases List.mem_cons.1 hk with h | h
        · exact absurd h hkk
        · exact h
      have hbeq : (k == k') = false := beq_eq_false_iff_ne.mpr hkk
      simp only [List.map_cons, List.lookup, hbeq]
      exact lookup_mapPair_of_mem f rest k (List.Nodup.of_cons hnd) hkrest

/-- C7: inserting `capacity + 1` distinct fingerprints into the empty result
cache (capacity 1000) evicts exactly the first-inserted entry — its key no
longer resolves — while every other inserted entry remains retrievable with
its stored value.  Eviction is by insertion order: the evicted key is the head
of the insertion sequence regardless of any intervening reads, which never
modify the cache (on a hit `analyze_email` returns without touching stored
state — third conjunct). -/
theorem C7_fifo_eviction_on_capacity_overflow
    (firstKey : String) (rest : List String) (f : String → AnalysisResult)
    (hnd : (firstKey :: rest).Nodup) (hlen : rest.length = ProcessingService.cacheMaxSize) :
    (((firstKey :: rest).foldl
        (fun acc k => ProcessingService.storeInCache acc k (f k)) []).lookup firstKey = none) ∧
    (∀ k ∈ rest, ((firstKey :: rest).foldl
        (fun acc k => ProcessingService.storeInCache acc k (f k)) []).lookup k = some (f k)) ∧
    (∀ (cfg : ProcCfg) (st : ProcState) (subject body : String) (sender : Option String)
        (hasCurrentDbId : Bool) (now : String) (v : AnalysisResult),
      st.cache.lookup (subject ++ body) = some v →
      (ProcessingService.analyzeEmail cfg st subject body sender hasCurrentDbId now).2.cache =
        st.cache) := by
  have hfold : (firstKey :: rest).foldl
      (fun acc k => ProcessingService.storeInCache acc k (f k)) [] =
      rest.map fun k => (k, f k) := by
    cases hrest : rest with
    | nil =>
      subst hrest
      simp [ProcessingService.cacheMaxSize] at hlen
    | cons k2 rest' =>
      subst hrest
      rw [List.foldl_cons]
      rw [show ProcessingService.storeInCache [] firstKey (f firstKey) =
        [(firstKey, f firstKey)] from rfl]
      have h2 := cacheFold_overflow_by_one f rest' k2 [(firstKey, f firstKey)]
        (List.Nodup.of_cons hnd)
        (by
          intro k' hk' p hp
          simp at hp
          subst hp
          intro hkk
          have hkeq : firstKey = k' := hkk
          rw [hkeq] at hnd
          exact (List.nodup_cons.1 hnd).1 hk')
        (by simp at hlen ⊢; omega)
        (by simp)
      rw [h2]
      simp
  refine ⟨?_, ?_, ?_⟩
  · rw [hfold]
    exact lookup_mapPair_of_not_mem f rest firstKey (List.nodup_cons.1 hnd).1
  · intro k hk
    rw [hfold]
    exact lookup_mapPair_of_mem f rest k (List.Nodup.of_cons hnd) hk
  · intro cfg st subject body sender hasCurrentDbId now v h
    simp [ProcessingService.analyzeEmail, h]

/-- Concrete distinct cache keys for the C7 witness: `n` repetitions of `a`. -/
def mkKey (n : Nat) : String := String.mk (List.replicate n 'a')

/-- `mkKey` is injective (the underlying lists have distinct lengths). -/
theorem mkKey_injective : Function.Injective mkKey := by
  intro a b h
  have := congrArg (fun s => s.data.length) h
  simpa [mkKey] using this

/-- The 1001 witness keys are distinct. -/
theorem mkKeyList_nodup :
    (mkKey 0 :: (List.range 1000).map fun i => mkKey (i + 1)).Nodup := by
  refine List.nodup_cons.2 ⟨?_, ?_⟩
  · intro hmem
    obtain ⟨i, _, heq⟩ := List.mem_map.1 hmem
    exact absurd (mkKey_injective heq) (by omega)
  · refine List.Nodup.map ?_ (List.nodup_range 1000)
    intro a b h
    have := mkKey_injective h
    omega

/-- Witness for C7: folding the 1001 concrete distinct keys into the empty
cache leaves the first key unresolvable and (for example) the second and the
last keys retrievable. -/
theorem C7_fifo_eviction_on_capacity_overflow_witness :
    (((mkKey 0 :: (List.range 1000).map fun i => mkKey (i + 1)).foldl
        (fun acc k => ProcessingService.storeInCache acc k vC9) []).lookup
      (mkKey 0) = none) ∧
    (((mkKey 0 :: (List.range 1000).map fun i => mkKey (i + 1)).foldl
        (fun acc k => ProcessingService.storeInCache acc k vC9) []).lookup
      (mkKey 1) = some vC9) ∧
    (((mkKey 0 :: (List.range 1000).map fun i => mkKey (i + 1)).foldl
        (fun acc k => ProcessingService.storeInCache acc k vC9) []).lookup
      (mkKey 1000) = some vC9) := by
  obtain ⟨h1, h2, _⟩ := C7_fifo_eviction_on_capacity_overflow (mkKey 0)
    ((List.range 1000).map fun i => mkKey (i + 1)) (fun _ => vC9)
    mkKeyList_nodup (by simp [ProcessingService.cacheMaxSize])
  refine ⟨h1, ?_, ?_⟩
  · exact h2 (mkKey 1) (List.mem_map.2 ⟨0, by simp, rfl⟩)
  · exact h2 (mkKey 1000) (List.mem_map.2 ⟨999, by simp, rfl⟩)

/-- Marking a row processed does not change which external ids exist. -/
theorem emailExists_updateStatus (records : List RawRecord) (d : Nat) (eid : Option String) :
    DatabaseLogger.emailExists (DatabaseLogger.updateStatus records d) eid =
      DatabaseLogger.emailExists records eid := by
  cases eid with
  | none => rfl
  | some id =>
    by_cases hid : id = ""
    · simp [DatabaseLogger.emailExists, hid]
    · simp only [DatabaseLogger.emailExists, if_neg hid]
      induction records generalizing d with
      | nil => rfl
      | cons r rest ih =>
        simp only [DatabaseLogger.updateStatus, List.any_cons, ih]
        congr 1
        by_cases hd : d = 1 <;> simp [hd]

/-- Classification-and-update neither adds nor removes external ids. -/
theorem classifyAndUpdate_emailExists (cfg : IngestCfg) (st : IngestState) (e : EmailData)
    (dbId : Option Nat) (eid : Option String) :
    DatabaseLogger.emailExists (IngestionService.classifyAndUpdate cfg st e dbId).records eid =
      DatabaseLogger.emailExists st.records eid := by
  unfold IngestionService.classifyAndUpdate
  dsimp only
  cases cfg.analyzeOutcome e.subject e.body e.sender with
  | ok c =>
    cases dbId with
    | some d =>
      dsimp only
      split
      · exact emailExists_updateStatus st.records d eid
      · rfl
    | none => rfl
  | error _ => rfl

/-- Classification-and-update performs exactly one classifier invocation. -/
theorem classifyAndUpdate_calls (cfg : IngestCfg) (st : IngestState) (e : EmailData)
    (dbId : Option Nat) :
    (IngestionService.classifyAndUpdate cfg st e dbId).classifyCalls =
      st.classifyCalls + 1 := by
  unfold IngestionService.classifyAndUpdate
  dsimp only
  cases cfg.analyzeOutcome e.subject e.body e.sender with
  | ok c =>
    cases dbId with
    | some d =>
      dsimp only
      split <;> rfl
    | none => rfl
  | error _ => rfl

/-- Appending a raw row carrying an id makes that id exist. -/
theorem emailExists_append_singleton (records : List RawRecord) (r : RawRecord) (id : String)
    (hid : id ≠ "") (h : r.email_id = some id) :
    DatabaseLogger.emailExists (records ++ [r]) (some id) = true := by
  simp [DatabaseLogger.emailExists, hid, h]

/-- After a fresh (non-duplicate) `receive_email` with a non-empty external
id, the id is present in the persistence store and at most one classification
was invoked. -/
theorem receiveEmail_fresh_persists_id (cfg : IngestCfg) (st : IngestState) (e : EmailData)
    (id : String) (hid : id ≠ "") (hide : e.email_id = some id)
    (hv : ¬(strTrim e.subject = "" ∧ strTrim e.body = ""))
    (hP : cfg.hasProcessing = true) (hD : cfg.hasDbLogger = true)
    (hfresh : DatabaseLogger.emailExists st.records (some id) = false) :
    DatabaseLogger.emailExists (IngestionService.receiveEmail cfg st e).2.records (some id) =
      true ∧
    (IngestionService.receiveEmail cfg st e).2.classifyCalls ≤ st.classifyCalls + 1 := by
  have hcond : (decide (strTrim e.subject = "") && decide (strTrim e.body = "")) = false := by
    rcases not_and_or.mp hv with h | h <;> simp [h]
  have hdup : DatabaseLogger.emailExists st.records
      ({ e with
        subject := if strTrim e.subject = "" then "(No Subject)" else e.subject
        sender := if strTrim e.sender = "" then "unknown" else e.sender
        body := if strTrim e.body = "" then "" else e.body } : EmailData).email_id = false := by
    simpa [hide] using hfresh
  unfold IngestionService.receiveEmail
  simp only [hcond, Bool.false_eq_true, if_false, hP, Bool.not_true, hD, hdup, Bool.and_false,
    if_true]
  cases hM : cfg.mongoEnabled <;> cases hA : cfg.autoClassify <;> cases hAs : cfg.classifyAsync <;>
    simp only [hM, hA, hAs, if_true, if_false, Bool.false_eq_true] <;>
    refine ⟨?_, ?_⟩ <;>
    first
      | exact emailExists_append_singleton st.records _ id hid hide
      | (rw [classifyAndUpdate_emailExists]; exact emailExists_append_singleton st.records _ id hid hide)
      | exact Nat.le_succ _
      | (rw [classifyAndUpdate_calls]; try exact le_rfl)

/-- C5: two sequential `receive_email` calls carrying the same non-empty
external id (fresh before the first call): the second call returns
`Skipped{reason: duplicate}` with no state change, and across both calls the
classifier was invoked at most once for that id. -/
theorem C5_second_receive_skipped_duplicate
    (cfg : IngestCfg) (st : IngestState) (e1 e2 : EmailData) (id : String)
    (hid : id ≠ "") (hid1 : e1.email_id = some id) (hid2 : e2.email_id = some id)
    (hv1 : ¬(strTrim e1.subject = "" ∧ strTrim e1.body = ""))
    (hv2 : ¬(strTrim e2.subject = "" ∧ strTrim e2.body = ""))
    (hP : cfg.hasProcessing = true) (hD : cfg.hasDbLogger = true)
    (hfresh : DatabaseLogger.emailExists st.records (some id) = false) :
    IngestionService.receiveEmail cfg (IngestionService.receiveEmail cfg st e1).2 e2 =
      (.ok (.skippedDuplicate (some id)), (IngestionService.receiveEmail cfg st e1).2) ∧
    (IngestionService.receiveEmail cfg st e1).2.classifyCalls ≤ st.classifyCalls + 1 := by
  obtain ⟨hex, hcalls⟩ := receiveEmail_fresh_persists_id cfg st e1 id hid hid1 hv1 hP hD hfresh
  refine ⟨?_, hcalls⟩
  have hcond2 : (decide (strTrim e2.subject = "") && decide (strTrim e2.body = "")) = false := by
    rcases not_and_or.mp hv2 with h | h <;> simp [h]
  set st1 := (IngestionService.receiveEmail cfg st e1).2 with hst1
  unfold IngestionService.receiveEmail
  simp [hcond2, hP, hD, hid2, hex]

/-- Ingestion configuration for the C5 witness (synchronous auto-classify). -/
def cfgIngestW : IngestCfg :=
  { analyzeOutcome := fun _ _ _ => .ok { category := "Spam" } }

/-- First witness message. -/
def e1W : EmailData :=
  { subject := "Hello", body := "World", sender := "a@b.c", email_id := some "m1" }

/-- Second witness message, same external id, different content. -/
def e2W : EmailData :=
  { subject := "Hello again", body := "W", sender := "a@b.c", email_id := some "m1" }

/-- Witness for C5 at concrete messages. -/
theorem C5_second_receive_skipped_duplicate_witness :
    IngestionService.receiveEmail cfgIngestW
        (IngestionService.receiveEmail cfgIngestW {} e1W).2 e2W =
      (.ok (.skippedDuplicate (some "m1")),
        (IngestionService.receiveEmail cfgIngestW {} e1W).2) ∧
    (IngestionService.receiveEmail cfgIngestW {} e1W).2.classifyCalls ≤ 0 + 1 :=
  C5_second_receive_skipped_duplicate cfgIngestW {} e1W e2W "m1"
    (by decide) rfl rfl (by decide) (by decide) rfl rfl rfl
